import Mathlib

/-!
Verification of the contact-card application (`contactcard.py`).

The application is a one-file Flask app that lists and edits Salesforce
Contact records stored in a PostgreSQL table kept in sync by Heroku Connect.
This development gives a shallow embedding of its behaviour:

* Python strings are embedded as `List Char` (`Str`).
* The record store (the `salesforce.contact` table) is a `List ContactModel`;
  `ContactModel.query.filter_by(sfid=...).first()` becomes a first-match
  lookup, and `db.session.commit()` on the fetched ORM object becomes
  replacement of the first matching row.
* The WTForms validators (`DataRequired`, `Email`) are embedded as executable
  predicates; each failing field contributes exactly one message because
  `DataRequired` stops the field's validation chain.
* The readiness gate (`salesforce_connection_exists` and the
  `heroku_connect_required` decorator) is embedded as explicit state passing:
  the process-wide `HEROKU_CONNECT_INITED` flag is threaded through, the
  catalog query's outcome is an explicit input, and the number of catalog
  queries issued is counted.
* `force_https` and the `welcome` view's host-name regex search are embedded
  over `List Char`, including Python's `str.replace(..., 1)` first-occurrence
  semantics and the backtracking search for the pattern
  `^https?://([\w-]*).herokuapp.com.*` (dots unescaped, as in the source).
-/

/-- Python strings, embedded as lists of characters. -/
abbrev Str := List Char

/-! ## Data model (`ContactModel`, `contactcard.py` lines 62-101) -/

/-- One row of the `salesforce.contact` table.  `id` is the PostgreSQL
primary key, `sfid` the Salesforce 18-character record id; the remaining
five columns are the mutable contact fields edited through the form. -/
structure ContactModel where
  id : Nat
  sfid : Str
  firstname : Str
  lastname : Str
  title : Str
  email : Str
  phone : Str
deriving DecidableEq

/-! ## Form data and validators (`ContactForm`, lines 104-137) -/

/-- The submitted values of the five form fields (all `StringField`s). -/
structure ContactFormData where
  firstname : Str
  lastname : Str
  title : Str
  email : Str
  phone : Str
deriving DecidableEq

/-- ASCII whitespace, for Python's `str.strip()` as used by `DataRequired`. -/
def isSpaceChar (c : Char) : Bool :=
  c = ' ' ∨ c = '\t' ∨ c = '\n' ∨ c = '\r' ∨ c = '\x0b' ∨ c = '\x0c'

/-- Python `str.strip()`: drop leading and trailing whitespace. -/
def pyStrip (s : Str) : Str :=
  ((s.dropWhile isSpaceChar).reverse.dropWhile isSpaceChar).reverse

/-- The WTForms `DataRequired` validator succeeds iff the field's string data
is non-empty after stripping whitespace (it raises `StopValidation`, ending
the field's validator chain, otherwise). -/
def dataRequiredOk (s : Str) : Bool :=
  !(pyStrip s).isEmpty

/-- Split a character list on a separator character (Python `str.split(sep)`). -/
def splitChar (sep : Char) : Str → List Str
  | [] => [[]]
  | c :: rest =>
    let r := splitChar sep rest
    if c = sep then [] :: r
    else
      match r with
      | [] => [[c]]
      | h :: t => (c :: h) :: t

/-- Characters allowed in an email domain label. -/
def isDomainChar (c : Char) : Bool :=
  c.isAlphanum || c = '-'

/-- The email grammar enforced by the WTForms `Email` validator (which
delegates to the external `email_validator` package, not part of this
repository): a non-empty local part, exactly one `@`, and a domain of at
least two non-empty dot-separated labels of alphanumeric/hyphen characters.
Any string without an `@` is rejected. -/
def emailOk (s : Str) : Bool :=
  match splitChar '@' s with
  | [loc, dom] =>
    let labels := splitChar '.' dom
    !loc.isEmpty && labels.length ≥ 2 &&
      labels.all (fun l => !l.isEmpty && l.all isDomainChar)
  | _ => false

/-- Default message of the `DataRequired` validator. -/
def requiredMsg : String := "This field is required."

/-- Default message of the `Email` validator. -/
def invalidEmailMsg : String := "Invalid email address."

/-- `form.errors` after `form.validate()`: per-field lists of error messages,
in field definition order.  `title` has no validators and never errors.
`DataRequired` raises `StopValidation`, so an empty field yields exactly the
required-message and the `Email` validator is not consulted.  (The CSRF-token
check of `FlaskForm`, which concerns session machinery, is outside this
model.) -/
structure FormErrors where
  firstname : List String
  lastname : List String
  email : List String
  phone : List String
deriving DecidableEq

/-- Validation of a submitted `ContactForm`, field by field. -/
def ContactForm.validate (d : ContactFormData) : FormErrors where
  firstname := if dataRequiredOk d.firstname then [] else [requiredMsg]
  lastname := if dataRequiredOk d.lastname then [] else [requiredMsg]
  email :=
    if !dataRequiredOk d.email then [requiredMsg]
    else if emailOk d.email then [] else [invalidEmailMsg]
  phone := if dataRequiredOk d.phone then [] else [requiredMsg]

/-- Whether `form.validate()` succeeded: no field has errors. -/
def FormErrors.isEmpty (e : FormErrors) : Bool :=
  e.firstname.isEmpty && e.lastname.isEmpty && e.email.isEmpty && e.phone.isEmpty

/-- All error messages, flattened in field definition order — the order in
which the handler iterates `form.errors.values()` and flashes them. -/
def FormErrors.allMessages (e : FormErrors) : List String :=
  e.firstname ++ e.lastname ++ e.email ++ e.phone

/-! ## Flash messages and the `contact` view (lines 233-280) -/

/-- Flash categories used by the app (`success`, `danger`). -/
inductive FlashCat where
  | success
  | danger
deriving DecidableEq

/-- One `flash(message, category=...)` call. -/
structure Flash where
  msg : String
  cat : FlashCat
deriving DecidableEq

/-- `ContactModel.query.filter_by(sfid=sfid).first()`: the first row of the
store whose `sfid` column matches, if any. -/
def queryFirstBySfid (store : List ContactModel) (sfid : Str) : Option ContactModel :=
  store.find? (fun c => c.sfid = sfid)

/-- `form.populate_obj(contact)`: overwrite the five mutable fields of the
record with the form's data; `id` and `sfid` are not form fields and are
untouched. -/
def populate_obj (d : ContactFormData) (c : ContactModel) : ContactModel :=
  { c with firstname := d.firstname, lastname := d.lastname, title := d.title,
           email := d.email, phone := d.phone }

/-- `form.process(formdata=None, obj=contact)`: populate the form fields from
the record's current column values. -/
def formFromObj (c : ContactModel) : ContactFormData where
  firstname := c.firstname
  lastname := c.lastname
  title := c.title
  email := c.email
  phone := c.phone

/-- `db.session.add(contact); db.session.commit()`: the ORM object fetched by
`first()` is the first row with the matching `sfid`, so committing the
mutated object writes back exactly that row. -/
def commitUpdate (store : List ContactModel) (sfid : Str) (c' : ContactModel) :
    List ContactModel :=
  match store with
  | [] => []
  | c :: rest =>
    if c.sfid = sfid then c' :: rest else c :: commitUpdate rest sfid c'

/-- A request to the `contact` view: `form.is_submitted()` is true exactly
for POST requests, which carry the submitted form data. -/
inductive ContactRequest where
  | get
  | post (d : ContactFormData)
deriving DecidableEq

/-- The `contact` view's response: a redirect to the index page, or a render
of `contact.html` with the sfid and the form's current field data. -/
inductive ContactResponse where
  | redirectIndex
  | render (sfid : Str) (form : ContactFormData)
deriving DecidableEq

/-- Result of one run of the `contact` view: the store after the request,
the flashed messages, and the response. -/
structure HandlerResult where
  store : List ContactModel
  flashes : List Flash
  response : ContactResponse
deriving DecidableEq

/-- The `contact` view (lines 233-280), behind the readiness gate.  Looks up
the record by `sfid`; if absent, flashes a not-found notice and redirects to
the index.  On POST, validates; on success populates the record, commits and
flashes success; on failure flashes every collected error message.  On GET,
fills the form from the record.  Either way (record found) it renders the
contact page with the form's data. -/
def contact (store : List ContactModel) (sfid : Str) (req : ContactRequest) :
    HandlerResult :=
  match queryFirstBySfid store sfid with
  | none =>
    ⟨store, [⟨"No contact with matching Salesforce ID exists.", .danger⟩],
      .redirectIndex⟩
  | some c =>
    match req with
    | .post d =>
      if (ContactForm.validate d).isEmpty then
        ⟨commitUpdate store sfid (populate_obj d c),
          [⟨"Contact successfully updated.", .success⟩], .render sfid d⟩
      else
        ⟨store, (ContactForm.validate d).allMessages.map (fun m => ⟨m, .danger⟩),
          .render sfid d⟩
    | .get => ⟨store, [], .render sfid (formFromObj c)⟩

/-! ## Readiness gate (`Config.HEROKU_CONNECT_INITED`, line 49;
`salesforce_connection_exists`, lines 140-162; `heroku_connect_required`,
lines 165-183) -/

/-- Initial value of the process-wide `HEROKU_CONNECT_INITED` config flag
(`Config`, line 49). -/
def Config.HEROKU_CONNECT_INITED : Bool := false

/-- Outcome of the catalog query
`SELECT COUNT(*) FROM information_schema.schemata WHERE schema_name = 'salesforce'`:
either it answers whether the `salesforce` schema exists, or the query itself
fails (connectivity, permissions), which in Python raises out of the check. -/
inductive CatalogOutcome where
  | ok (schemaExists : Bool)
  | failure
deriving DecidableEq

/-- Errors that escape a request handler in this embedding. -/
inductive PyError where
  | storeAccess
  | attributeError
deriving DecidableEq

/-- `salesforce_connection_exists()` (lines 140-162), with the process state
and the catalog explicit.  Input: the current `HEROKU_CONNECT_INITED` flag
and the catalog query's outcome (consulted only if a query is issued).
Output: the returned boolean (or the propagated store error), the flag after
the call, and the number of catalog queries issued.  If the flag is already
true no query is made; otherwise one query runs, and only a positive result
sets the flag. -/
def salesforce_connection_exists (flag : Bool) (cat : CatalogOutcome) :
    Except PyError Bool × Bool × Nat :=
  if flag then (.ok flag, flag, 0)
  else
    match cat with
    | .failure => (.error .storeAccess, flag, 1)
    | .ok schemaExists =>
      if schemaExists then (.ok true, true, 1)
      else (.ok flag, flag, 1)

/-- A guarded view's outcome: run the wrapped view, or redirect to `/welcome`. -/
inductive Guarded (α : Type) where
  | proceed (a : α)
  | redirectWelcome
deriving DecidableEq

/-- The `heroku_connect_required` decorator (lines 165-183): call
`salesforce_connection_exists`; if it returns true run the wrapped view,
if false redirect to the welcome page, and if it raises the error
propagates.  The flag and query count are threaded through. -/
def heroku_connect_required {α : Type} (flag : Bool) (cat : CatalogOutcome)
    (view : α) : Except PyError (Guarded α) × Bool × Nat :=
  match salesforce_connection_exists flag cat with
  | (.error e, flag', q) => (.error e, flag', q)
  | (.ok ready, flag', q) =>
    if ready then (.ok (.proceed view), flag', q)
    else (.ok .redirectWelcome, flag', q)

/-- A sequence of calls to `salesforce_connection_exists` (one per guarded
request), starting from a given flag, with the catalog outcome of each call
listed; returns the final flag and the total number of catalog queries. -/
def runGate : Bool → List CatalogOutcome → Bool × Nat
  | flag, [] => (flag, 0)
  | flag, cat :: cats =>
    let r := salesforce_connection_exists flag cat
    let rest := runGate r.2.1 cats
    (rest.1, r.2.2 + rest.2)

/-! ## `force_https` (lines 186-192) -/

/-- Python `s.replace(pat, rep, 1)` for a non-empty pattern: replace the
first (leftmost) occurrence of `pat`, if any. -/
def replaceFirst (s pat rep : Str) : Str :=
  match s with
  | [] => []
  | c :: rest =>
    if pat.isPrefixOf (c :: rest) then rep ++ (c :: rest).drop pat.length
    else c :: replaceFirst rest pat rep

/-- The characters of `http://`. -/
def httpL : Str := ['h', 't', 't', 'p', ':', '/', '/']

/-- The characters of `https://`. -/
def httpsL : Str := ['h', 't', 't', 'p', 's', ':', '/', '/']

/-- The `force_https` before-request hook (lines 186-192): if the request URL
starts with `http://`, answer a 301 redirect to the URL with its first
`http://` replaced by `https://`; otherwise do nothing. -/
def force_https (url : Str) : Option (Nat × Str) :=
  if httpL.isPrefixOf url then some (301, replaceFirst url httpL httpsL)
  else none

/-! ## The `welcome` view (lines 195-219) and its host-name regex

`welcome` runs `re.search('^https?://([\w-]*).herokuapp.com.*', request.url_root)`
and immediately calls `.group(1)` on the result, which raises
`AttributeError` when the search found no match.  The pattern's dots are
unescaped and match any character.  The search is embedded below: strip the
scheme, then (as the backtracking engine does for the greedy `([\w-]*)`)
try the longest word-character run first and shrink until the fixed tail
`.herokuapp.com.*` matches. -/

/-- Python regex `[\w-]`: a word character or a hyphen (ASCII model). -/
def isWordOrHyphen (c : Char) : Bool :=
  c.isAlphanum || c = '_' || c = '-'

/-- The characters of `herokuapp`. -/
def herokuappL : Str := ['h', 'e', 'r', 'o', 'k', 'u', 'a', 'p', 'p']

/-- The characters of `com`. -/
def comL : Str := ['c', 'o', 'm']

/-- Whether a string matches the regex tail `.com.*`: any character, `com`,
anything. -/
def comTailOk : Str → Bool
  | [] => false
  | _ :: r2 => comL.isPrefixOf r2

/-- Whether a string matches the regex tail `.herokuapp.com.*`:
any character, `herokuapp`, any character, `com`, anything. -/
def tailOk : Str → Bool
  | [] => false
  | _ :: rest => herokuappL.isPrefixOf rest && comTailOk (rest.drop 9)

/-- `^https?`-then-`://`: strip `https://` or `http://` from the front. -/
def stripScheme (url : Str) : Option Str :=
  if httpsL.isPrefixOf url then some (url.drop 8)
  else if httpL.isPrefixOf url then some (url.drop 7)
  else none

/-- Greedy backtracking for `([\w-]*)`: `w` is the maximal word-character run
after the scheme and `rest` what follows it; try group length `k`, `k-1`, …,
`0`, returning the captured group of the first (longest) split whose
remainder matches the tail. -/
def greedyFrom (w rest : Str) : Nat → Option Str
  | 0 => if tailOk (w ++ rest) then some [] else none
  | k + 1 =>
    if tailOk (w.drop (k + 1) ++ rest) then some (w.take (k + 1))
    else greedyFrom w rest k

/-- `re.search('^https?://([\w-]*).herokuapp.com.*', url)`: `none` when there
is no match, otherwise the captured group 1 (the greedy capture). -/
def appNameMatch (url : Str) : Option Str :=
  match stripScheme url with
  | none => none
  | some after =>
    greedyFrom (after.takeWhile isWordOrHyphen) (after.dropWhile isWordOrHyphen)
      (after.takeWhile isWordOrHyphen).length

/-- The dashboard deep link rendered into the welcome page (lines 212-214). -/
def dashboardUrl (appName : Str) : Str :=
  "https://dashboard.heroku.com/apps/".toList ++ appName ++ "/resources".toList

/-- The `welcome` view's outcome. -/
inductive WelcomeResult where
  | redirectIndex
  | rendered (heroku_resource_url : Str)
deriving DecidableEq

/-- The `welcome` view (lines 195-219): if the readiness check returns true,
redirect to the index; otherwise search the root URL for the host-name
pattern and render the setup page with the dashboard link — calling
`.group(1)` on a failed search raises `AttributeError`.  Returns the
response (or error) and the flag after the request. -/
def welcome (flag : Bool) (cat : CatalogOutcome) (url_root : Str) :
    Except PyError WelcomeResult × Bool :=
  match salesforce_connection_exists flag cat with
  | (.error e, flag', _) => (.error e, flag')
  | (.ok ready, flag', _) =>
    if ready then (.ok .redirectIndex, flag')
    else
      match appNameMatch url_root with
      | none => (.error .attributeError, flag')
      | some appName => (.ok (.rendered (dashboardUrl appName)), flag')

/-- The declarative reading of the regex `^https?://([\w-]*).herokuapp.com.*`
(dots unescaped): the URL decomposes as a scheme, a run of word/hyphen
characters, any character, `herokuapp`, any character, `com`, and anything.
The search succeeds exactly on such URLs (proved below). -/
def MatchesWelcomePattern (url : Str) : Prop :=
  ∃ (scheme name tail : Str) (c1 c2 : Char),
    (scheme = httpL ∨ scheme = httpsL) ∧
    (∀ c ∈ name, isWordOrHyphen c = true) ∧
    url = scheme ++ (name ++ (c1 :: (herokuappL ++ (c2 :: (comL ++ tail)))))

/-! ## Concrete fixtures used by witnesses -/

/-- A Salesforce-style 18-character record id. -/
def exSfid : Str := "003000000000001AAA".toList

/-- A concrete stored contact record. -/
def exRec : ContactModel :=
  ⟨1, exSfid, "Jane".toList, "Doe".toList, "CEO".toList,
    "jane@example.com".toList, "555-0100".toList⟩

/-- A one-record store. -/
def exStore : List ContactModel := [exRec]

/-- A fully valid submission. -/
def exValid : ContactFormData :=
  ⟨"John".toList, "Smith".toList, "CTO".toList, "john@example.org".toList,
    "555-0199".toList⟩

/-- A submission with empty `firstname` and `lastname`. -/
def exBad : ContactFormData :=
  ⟨"".toList, "".toList, "CTO".toList, "john@example.org".toList,
    "555-0199".toList⟩

/-- A submission whose only flaw is `email = "not-an-email"`. -/
def exBadEmail : ContactFormData :=
  ⟨"John".toList, "Smith".toList, "CTO".toList, "not-an-email".toList,
    "555-0199".toList⟩

/-! ## Helper lemmas about the store -/

/-- A record found by `sfid` lookup has that `sfid`. -/
theorem sfid_of_queryFirst {store : List ContactModel} {sfid : Str}
    {c : ContactModel} (h : queryFirstBySfid store sfid = some c) :
    c.sfid = sfid := by
  have := List.find?_some h
  exact of_decide_eq_true this

/-- After committing a record whose `sfid` matches the lookup key, the lookup
finds exactly the committed record (the row that was replaced is the first
match, and the committed record still matches). -/
theorem queryFirst_commitUpdate {store : List ContactModel} {sfid : Str}
    {c c' : ContactModel} (hfind : queryFirstBySfid store sfid = some c)
    (hsfid : c'.sfid = sfid) :
    queryFirstBySfid (commitUpdate store sfid c') sfid = some c' := by
  induction store with
  | nil => simp [queryFirstBySfid] at hfind
  | cons a rest ih =>
    by_cases ha : a.sfid = sfid
    · simp [commitUpdate, ha, queryFirstBySfid, hsfid]
    · rw [queryFirstBySfid, List.find?_cons_of_neg _ (by simpa using ha)]
        at hfind
      rw [commitUpdate, if_neg ha, queryFirstBySfid,
        List.find?_cons_of_neg _ (by simpa using ha)]
      exact ih hfind

/-- Committing the same record twice in a row is the same as committing it
once. -/
theorem commitUpdate_idem {sfid : Str} {c' : ContactModel}
    (hsfid : c'.sfid = sfid) (store : List ContactModel) :
    commitUpdate (commitUpdate store sfid c') sfid c' =
      commitUpdate store sfid c' := by
  induction store with
  | nil => rfl
  | cons a rest ih =>
    by_cases ha : a.sfid = sfid
    · simp [commitUpdate, ha, hsfid]
    · simp [commitUpdate, ha, ih]

/-- Re-populating a record with the same form data changes nothing further. -/
theorem populate_obj_idem (d : ContactFormData) (c : ContactModel) :
    populate_obj d (populate_obj d c) = populate_obj d c := rfl

/-- `populate_obj` leaves the `sfid` column untouched. -/
theorem populate_obj_sfid (d : ContactFormData) (c : ContactModel) :
    (populate_obj d c).sfid = c.sfid := rfl

/-- Reading the form back from a freshly populated record yields exactly the
submitted data. -/
theorem formFromObj_populate_obj (d : ContactFormData) (c : ContactModel) :
    formFromObj (populate_obj d c) = d := rfl

/-! ## Claim theorems -/

/-- C1: for every existing record matched by `sfid`, a POST whose fields all
pass validation overwrites the record's five mutable fields with exactly the
submitted values, commits them to the store, and flashes
'Contact successfully updated.' with success severity. -/
theorem contact_valid_post_updates (store : List ContactModel) (sfid : Str)
    (c : ContactModel) (d : ContactFormData)
    (hfind : queryFirstBySfid store sfid = some c)
    (hvalid : (ContactForm.validate d).isEmpty = true) :
    contact store sfid (.post d) =
      ⟨commitUpdate store sfid (populate_obj d c),
        [⟨"Contact successfully updated.", .success⟩], .render sfid d⟩ ∧
    queryFirstBySfid (contact store sfid (.post d)).store sfid =
      some (populate_obj d c) ∧
    formFromObj (populate_obj d c) = d := by
  have hsfid : (populate_obj d c).sfid = sfid := by
    rw [populate_obj_sfid]; exact sfid_of_queryFirst hfind
  have heq : contact store sfid (.post d) =
      ⟨commitUpdate store sfid (populate_obj d c),
        [⟨"Contact successfully updated.", .success⟩], .render sfid d⟩ := by
    simp [contact, hfind, hvalid]
  exact ⟨heq, by rw [heq]; exact queryFirst_commitUpdate hfind hsfid, rfl⟩

/-- C1 witness at a concrete store and submission. -/
theorem contact_valid_post_updates_witness :
    queryFirstBySfid exStore exSfid = some exRec ∧
    contact exStore exSfid (.post exValid) =
      ⟨commitUpdate exStore exSfid (populate_obj exValid exRec),
        [⟨"Contact successfully updated.", .success⟩],
        .render exSfid exValid⟩ :=
  ⟨by decide,
    (contact_valid_post_updates exStore exSfid exRec exValid (by decide)
      (by decide)).1⟩

/-- C2: validation is all-or-nothing — if any field fails, the store is left
exactly as it was, every collected error message is flashed with error
severity, and each failing field contributes exactly one message. -/
theorem contact_invalid_post_preserves_store (store : List ContactModel)
    (sfid : Str) (c : ContactModel) (d : ContactFormData)
    (hfind : queryFirstBySfid store sfid = some c)
    (hinvalid : (ContactForm.validate d).isEmpty = false) :
    contact store sfid (.post d) =
      ⟨store,
        (ContactForm.validate d).allMessages.map (fun m => ⟨m, .danger⟩),
        .render sfid d⟩ ∧
    (ContactForm.validate d).firstname.length =
      (if dataRequiredOk d.firstname then 0 else 1) ∧
    (ContactForm.validate d).lastname.length =
      (if dataRequiredOk d.lastname then 0 else 1) ∧
    (ContactForm.validate d).email.length =
      (if dataRequiredOk d.email && emailOk d.email then 0 else 1) ∧
    (ContactForm.validate d).phone.length =
      (if dataRequiredOk d.phone then 0 else 1) := by
  refine ⟨by simp [contact, hfind, hinvalid], ?_, ?_, ?_, ?_⟩
  · cases h : dataRequiredOk d.firstname <;> simp [ContactForm.validate, h]
  · cases h : dataRequiredOk d.lastname <;> simp [ContactForm.validate, h]
  · cases h : dataRequiredOk d.email <;>
      cases h2 : emailOk d.email <;> simp [ContactForm.validate, h, h2]
  · cases h : dataRequiredOk d.phone <;> simp [ContactForm.validate, h]

/-- C2 witness: empty `firstname` and `lastname` leave the store untouched
and flash one required-field message per violated field. -/
theorem contact_invalid_post_preserves_store_witness :
    queryFirstBySfid exStore exSfid = some exRec ∧
    contact exStore exSfid (.post exBad) =
      ⟨exStore, [⟨requiredMsg, .danger⟩, ⟨requiredMsg, .danger⟩],
        .render exSfid exBad⟩ :=
  ⟨by decide, by
    rw [(contact_invalid_post_preserves_store exStore exSfid exRec exBad
      (by decide) (by decide)).1]
    decide⟩

/-- C4: any request (GET or POST) for an `sfid` with no matching record
leaves the store untouched, flashes the not-found notice with error
severity, and redirects to the listing route. -/
theorem contact_not_found (store : List ContactModel) (sfid : Str)
    (req : ContactRequest) (h : queryFirstBySfid store sfid = none) :
    contact store sfid req =
      ⟨store, [⟨"No contact with matching Salesforce ID exists.", .danger⟩],
        .redirectIndex⟩ := by
  simp [contact, h]

/-- C4 witness on the empty store. -/
theorem contact_not_found_witness :
    queryFirstBySfid [] exSfid = none ∧
    contact [] exSfid .get =
      ⟨[], [⟨"No contact with matching Salesforce ID exists.", .danger⟩],
        .redirectIndex⟩ :=
  ⟨by decide, contact_not_found [] exSfid .get (by decide)⟩

/-- C5: a submission whose email is the non-empty string `not-an-email`
(all other fields valid) changes nothing in the store and flashes exactly
one error message — the email field's invalid-address message. -/
theorem contact_bad_email (store : List ContactModel) (sfid : Str)
    (c : ContactModel) (d : ContactFormData)
    (hfind : queryFirstBySfid store sfid = some c)
    (hf : dataRequiredOk d.firstname = true)
    (hl : dataRequiredOk d.lastname = true)
    (hp : dataRequiredOk d.phone = true)
    (he : d.email = "not-an-email".toList) :
    contact store sfid (.post d) =
      ⟨store, [⟨invalidEmailMsg, .danger⟩], .render sfid d⟩ ∧
    ContactForm.validate d = ⟨[], [], [invalidEmailMsg], []⟩ := by
  have h1 : dataRequiredOk d.email = true := by rw [he]; decide
  have h2 : emailOk d.email = false := by rw [he]; decide
  have hv : ContactForm.validate d = ⟨[], [], [invalidEmailMsg], []⟩ := by
    simp [ContactForm.validate, hf, hl, hp, h1, h2]
  refine ⟨?_, hv⟩
  simp [contact, hfind, hv, FormErrors.isEmpty, FormErrors.allMessages]

/-- C5 witness at a concrete store and submission. -/
theorem contact_bad_email_witness :
    queryFirstBySfid exStore exSfid = some exRec ∧
    contact exStore exSfid (.post exBadEmail) =
      ⟨exStore, [⟨invalidEmailMsg, .danger⟩], .render exSfid exBadEmail⟩ :=
  ⟨by decide,
    (contact_bad_email exStore exSfid exRec exBadEmail (by decide) (by decide)
      (by decide) (by decide) (by decide)).1⟩

/-- C6: a GET for an existing record mutates nothing and renders the edit
form pre-populated with the record's five mutable field values. -/
theorem contact_get_prepopulates (store : List ContactModel) (sfid : Str)
    (c : ContactModel) (hfind : queryFirstBySfid store sfid = some c) :
    contact store sfid .get = ⟨store, [], .render sfid (formFromObj c)⟩ ∧
    (formFromObj c).firstname = c.firstname ∧
    (formFromObj c).lastname = c.lastname ∧
    (formFromObj c).title = c.title ∧
    (formFromObj c).email = c.email ∧
    (formFromObj c).phone = c.phone := by
  exact ⟨by simp [contact, hfind], rfl, rfl, rfl, rfl, rfl⟩

/-- C6 witness at a concrete store. -/
theorem contact_get_prepopulates_witness :
    queryFirstBySfid exStore exSfid = some exRec ∧
    contact exStore exSfid .get =
      ⟨exStore, [], .render exSfid (formFromObj exRec)⟩ :=
  ⟨by decide, (contact_get_prepopulates exStore exSfid exRec (by decide)).1⟩

/-- C9: resubmitting the identical valid payload leaves the store in the
same state after both submissions as after the first. -/
theorem contact_resubmit_idempotent (store : List ContactModel) (sfid : Str)
    (c : ContactModel) (d : ContactFormData)
    (hfind : queryFirstBySfid store sfid = some c)
    (hvalid : (ContactForm.validate d).isEmpty = true) :
    (contact (contact store sfid (.post d)).store sfid (.post d)).store =
      (contact store sfid (.post d)).store := by
  have hsfid : (populate_obj d c).sfid = sfid := by
    rw [populate_obj_sfid]; exact sfid_of_queryFirst hfind
  have h1 : (contact store sfid (.post d)).store =
      commitUpdate store sfid (populate_obj d c) := by
    simp [contact, hfind, hvalid]
  have hfind2 : queryFirstBySfid (commitUpdate store sfid (populate_obj d c))
      sfid = some (populate_obj d c) :=
    queryFirst_commitUpdate hfind hsfid
  rw [h1]
  simp [contact, hfind2, hvalid, populate_obj_idem]
  exact commitUpdate_idem hsfid store

/-- A list is a Boolean prefix of itself followed by anything. -/
theorem isPrefixOf_append_self (l t : Str) : l.isPrefixOf (l ++ t) = true := by
  induction l with
  | nil => simp [List.isPrefixOf]
  | cons a as ih => simp [List.isPrefixOf, ih]

/-- Dropping the length of the left part of an append leaves the right part. -/
theorem drop_length_append (l t : Str) : (l ++ t).drop l.length = t := by
  induction l with
  | nil => rfl
  | cons a as ih => simp [ih]

/-- `replaceFirst` on a string that starts with the (non-empty) pattern
replaces exactly that leading occurrence. -/
theorem replaceFirst_self_append (c : Char) (pt rep t : Str) :
    replaceFirst ((c :: pt) ++ t) (c :: pt) rep = rep ++ t := by
  have h := isPrefixOf_append_self (c :: pt) t
  have hd := drop_length_append (c :: pt) t
  simp only [List.cons_append] at h hd ⊢
  simp only [replaceFirst, if_pos h]
  rw [hd]

/-- C7: every request whose URL has scheme `http` is answered with a 301
redirect to the identical URL with only the scheme upgraded to `https`. -/
theorem force_https_upgrades (rest : Str) :
    force_https (httpL ++ rest) = some (301, httpsL ++ rest) := by
  have h := isPrefixOf_append_self httpL rest
  rw [force_https, if_pos h]
  rw [show httpL = 'h' :: ['t', 't', 'p', ':', '/', '/'] from rfl,
    replaceFirst_self_append]

/-- C3: the readiness flag is a monotonic latch.  It starts false
(`Config.HEROKU_CONNECT_INITED`); once true, every check returns true with
zero catalog queries (also across any sequence of further requests); while
false every check issues exactly one catalog query, a positive catalog
result latches the flag, a negative one returns false and leaves the flag
untouched; guarded requests redirect to the setup page exactly while the
check returns false. -/
theorem readiness_gate_latch :
    Config.HEROKU_CONNECT_INITED = false ∧
    (∀ cat : CatalogOutcome,
      salesforce_connection_exists true cat = (.ok true, true, 0)) ∧
    (∀ cat : CatalogOutcome,
      (salesforce_connection_exists false cat).2.2 = 1) ∧
    salesforce_connection_exists false (.ok true) = (.ok true, true, 1) ∧
    salesforce_connection_exists false (.ok false) = (.ok false, false, 1) ∧
    (∀ flag : Bool,
      (salesforce_connection_exists flag (.ok false)).2.1 = flag) ∧
    (∀ (α : Type) (view : α), heroku_connect_required false (.ok false) view =
      (.ok .redirectWelcome, false, 1)) ∧
    (∀ (α : Type) (view : α), heroku_connect_required false (.ok true) view =
      (.ok (.proceed view), true, 1)) ∧
    (∀ (α : Type) (view : α) (cat : CatalogOutcome),
      heroku_connect_required true cat view = (.ok (.proceed view), true, 0)) ∧
    (∀ cats : List CatalogOutcome, runGate true cats = (true, 0)) := by
  refine ⟨rfl, fun _ => rfl, fun cat => ?_, rfl, rfl, fun flag => ?_,
    fun _ _ => rfl, fun _ _ => rfl, fun _ _ _ => rfl, fun cats => ?_⟩
  · cases cat with
    | failure => rfl
    | ok se => cases se <;> rfl
  · cases flag <;> rfl
  · induction cats with
    | nil => rfl
    | cons c cs ih => simp [runGate, salesforce_connection_exists, ih]

/-- C8: if the catalog query itself fails, the readiness check does not
answer "not ready": the store-access error propagates to the caller (also
through the guarding decorator) and the cached flag is left unchanged; when
the flag is already true no query runs at all, so no failure can occur. -/
theorem readiness_gate_failure_propagates :
    salesforce_connection_exists false .failure =
      (.error .storeAccess, false, 1) ∧
    salesforce_connection_exists true .failure = (.ok true, true, 0) ∧
    (∀ (α : Type) (view : α), heroku_connect_required false .failure view =
      (.error .storeAccess, false, 1)) :=
  ⟨rfl, rfl, fun _ _ => rfl⟩

/-- C9 witness at a concrete store and submission. -/
theorem contact_resubmit_idempotent_witness :
    (contact (contact exStore exSfid (.post exValid)).store exSfid
      (.post exValid)).store = (contact exStore exSfid (.post exValid)).store :=
  contact_resubmit_idempotent exStore exSfid exRec exValid (by decide)
    (by decide)

/-! ## Correctness of the welcome host-name search -/

/-- A Boolean prefix yields an append decomposition. -/
theorem eq_append_drop_of_isPrefixOf {l s : Str} (h : l.isPrefixOf s = true) :
    s = l ++ s.drop l.length := by
  induction l generalizing s with
  | nil => simp
  | cons a as ih =>
    cases s with
    | nil => simp [List.isPrefixOf] at h
    | cons b bs =>
      simp only [List.isPrefixOf, Bool.and_eq_true, beq_iff_eq] at h
      obtain ⟨hab, hrest⟩ := h
      subst hab
      have := ih hrest
      simp only [List.cons_append, List.length_cons, List.drop_succ_cons]
      exact congrArg (a :: ·) this

/-- Strings of the shape `.herokuapp.com.*` satisfy `tailOk`. -/
theorem tailOk_construct (c1 c2 : Char) (tail : Str) :
    tailOk (c1 :: (herokuappL ++ (c2 :: (comL ++ tail)))) = true := by
  have h1 := isPrefixOf_append_self herokuappL (c2 :: (comL ++ tail))
  have h2 := isPrefixOf_append_self comL tail
  have hd : (herokuappL ++ (c2 :: (comL ++ tail))).drop 9 =
      c2 :: (comL ++ tail) :=
    drop_length_append herokuappL (c2 :: (comL ++ tail))
  simp [tailOk, h1, hd, comTailOk, h2]

/-- Strings satisfying `tailOk` have the shape `.herokuapp.com.*`. -/
theorem tailOk_destruct {s : Str} (h : tailOk s = true) :
    ∃ (c1 c2 : Char) (tail : Str),
      s = c1 :: (herokuappL ++ (c2 :: (comL ++ tail))) := by
  cases s with
  | nil => simp [tailOk] at h
  | cons c1 rest =>
    simp only [tailOk, Bool.and_eq_true] at h
    obtain ⟨h1, h2⟩ := h
    have hrest := eq_append_drop_of_isPrefixOf h1
    cases hr2 : rest.drop 9 with
    | nil => rw [hr2] at h2; simp [comTailOk] at h2
    | cons c2 r3 =>
      rw [hr2] at h2
      simp only [comTailOk] at h2
      have hr3 := eq_append_drop_of_isPrefixOf h2
      refine ⟨c1, c2, r3.drop comL.length, ?_⟩
      have h9 : herokuappL.length = 9 := rfl
      rw [h9] at hrest
      rw [hr2] at hrest
      rw [hrest, ← hr3]

/-- `takeWhile`/`dropWhile` pass over a leading block that satisfies the
predicate. -/
theorem takeWhile_append_of_all {p : Char → Bool} {name : Str} (X : Str)
    (h : ∀ c ∈ name, p c = true) :
    (name ++ X).takeWhile p = name ++ X.takeWhile p ∧
      (name ++ X).dropWhile p = X.dropWhile p := by
  induction name with
  | nil => simp
  | cons a as ih =>
    have ha : p a = true := h a (by simp)
    have hrest : ∀ c ∈ as, p c = true := fun c hc => h c (by simp [hc])
    obtain ⟨h1, h2⟩ := ih hrest
    simp [List.takeWhile_cons, List.dropWhile_cons, ha, h1, h2]

/-- What a successful greedy search returns: a split of the word run whose
remainder matches the regex tail. -/
theorem greedyFrom_some {w rest name : Str} :
    ∀ {k : Nat}, greedyFrom w rest k = some name →
      ∃ j, j ≤ k ∧ name = w.take j ∧ tailOk (w.drop j ++ rest) = true := by
  intro k
  induction k with
  | zero =>
    intro h
    simp only [greedyFrom] at h
    by_cases ht : tailOk (w ++ rest) = true
    · rw [if_pos ht] at h
      refine ⟨0, Nat.le_refl 0, ?_, ?_⟩
      · simpa using (Option.some.inj h).symm
      · simpa using ht
    · rw [if_neg ht] at h
      cases h
  | succ k ih =>
    intro h
    simp only [greedyFrom] at h
    by_cases ht : tailOk (w.drop (k + 1) ++ rest) = true
    · rw [if_pos ht] at h
      exact ⟨k + 1, Nat.le_refl _, (Option.some.inj h).symm, ht⟩
    · rw [if_neg ht] at h
      obtain ⟨j, hj, hn, htail⟩ := ih h
      exact ⟨j, Nat.le_succ_of_le hj, hn, htail⟩

/-- If some split of the word run lets the regex tail match, the greedy
search succeeds. -/
theorem greedyFrom_isSome_of_tailOk {w rest : Str} :
    ∀ {k j : Nat}, j ≤ k → tailOk (w.drop j ++ rest) = true →
      (greedyFrom w rest k).isSome = true := by
  intro k
  induction k with
  | zero =>
    intro j hj ht
    have hj0 : j = 0 := Nat.le_zero.mp hj
    subst hj0
    have ht' : tailOk (w ++ rest) = true := by simpa using ht
    simp [greedyFrom, ht']
  | succ k ih =>
    intro j hj ht
    by_cases hk : tailOk (w.drop (k + 1) ++ rest) = true
    · simp [greedyFrom, hk]
    · have hne : j ≠ k + 1 := fun he => hk (he ▸ ht)
      have hj' : j ≤ k := Nat.lt_succ_iff.mp (Nat.lt_of_le_of_ne hj hne)
      simp only [greedyFrom, if_neg hk]
      exact ih hj' ht

/-- `stripScheme` strips a literal `https://`. -/
theorem stripScheme_https (r : Str) : stripScheme (httpsL ++ r) = some r := by
  have h := isPrefixOf_append_self httpsL r
  rw [stripScheme, if_pos h]
  exact congrArg some (drop_length_append httpsL r)

/-- `stripScheme` strips a literal `http://`. -/
theorem stripScheme_http (r : Str) : stripScheme (httpL ++ r) = some r := by
  have hns : httpsL.isPrefixOf (httpL ++ r) = false := by
    simp only [httpL, httpsL, List.cons_append]
    simp +decide [List.isPrefixOf]
  rw [stripScheme, if_neg (by simp [hns]),
    if_pos (isPrefixOf_append_self httpL r)]
  exact congrArg some (drop_length_append httpL r)

/-- A successful `stripScheme` means the URL starts with one of the two
schemes. -/
theorem stripScheme_eq_some {url after : Str}
    (h : stripScheme url = some after) :
    url = httpsL ++ after ∨ url = httpL ++ after := by
  rw [stripScheme] at h
  by_cases h1 : httpsL.isPrefixOf url = true
  · rw [if_pos h1] at h
    have h' : url.drop httpsL.length = after := Option.some.inj h
    exact Or.inl ((eq_append_drop_of_isPrefixOf h1).trans
      (congrArg (httpsL ++ ·) h'))
  · rw [if_neg h1] at h
    by_cases h2 : httpL.isPrefixOf url = true
    · rw [if_pos h2] at h
      have h' : url.drop httpL.length = after := Option.some.inj h
      exact Or.inr ((eq_append_drop_of_isPrefixOf h2).trans
        (congrArg (httpL ++ ·) h'))
    · rw [if_neg h2] at h
      cases h

/-- Completeness of the embedded search: every URL of the pattern's shape is
found. -/
theorem appNameMatch_isSome_of_matches {url : Str}
    (h : MatchesWelcomePattern url) : (appNameMatch url).isSome = true := by
  obtain ⟨scheme, name, tail, c1, c2, hscheme, hname, hurl⟩ := h
  have hstrip : stripScheme url =
      some (name ++ (c1 :: (herokuappL ++ (c2 :: (comL ++ tail))))) := by
    rcases hscheme with hs | hs <;> subst hs <;> rw [hurl]
    · exact stripScheme_http _
    · exact stripScheme_https _
  obtain ⟨ht, hd⟩ :=
    takeWhile_append_of_all (p := isWordOrHyphen)
      (c1 :: (herokuappL ++ (c2 :: (comL ++ tail)))) hname
  simp only [appNameMatch, hstrip]
  rw [ht, hd]
  apply greedyFrom_isSome_of_tailOk (j := name.length)
  · rw [List.length_append]
    exact Nat.le_add_right _ _
  · rw [drop_length_append, List.takeWhile_append_dropWhile]
    exact tailOk_construct c1 c2 tail

/-- Soundness of the embedded search: a successful search exhibits the
pattern's shape. -/
theorem matches_of_appNameMatch_some {url name0 : Str}
    (h : appNameMatch url = some name0) : MatchesWelcomePattern url := by
  cases hstrip : stripScheme url with
  | none => simp [appNameMatch, hstrip] at h
  | some after =>
    simp only [appNameMatch, hstrip] at h
    obtain ⟨j, hj, hn, htail⟩ := greedyFrom_some h
    obtain ⟨c1, c2, tail, hX⟩ := tailOk_destruct htail
    have hafter : after = (after.takeWhile isWordOrHyphen).take j ++
        ((after.takeWhile isWordOrHyphen).drop j ++
          after.dropWhile isWordOrHyphen) := by
      rw [← List.append_assoc, List.take_append_drop,
        List.takeWhile_append_dropWhile]
    have hall : ∀ c ∈ (after.takeWhile isWordOrHyphen).take j,
        isWordOrHyphen c = true := fun c hc =>
      List.mem_takeWhile_imp (List.take_subset _ _ hc)
    have hfinal : after = (after.takeWhile isWordOrHyphen).take j ++
        (c1 :: (herokuappL ++ (c2 :: (comL ++ tail)))) := by
      conv_lhs => rw [hafter]
      rw [hX]
    rcases stripScheme_eq_some hstrip with hu | hu
    · refine ⟨httpsL, (after.takeWhile isWordOrHyphen).take j, tail, c1, c2,
        Or.inr rfl, hall, ?_⟩
      rw [hu]
      exact congrArg (httpsL ++ ·) hfinal
    · refine ⟨httpL, (after.takeWhile isWordOrHyphen).take j, tail, c1, c2,
        Or.inl rfl, hall, ?_⟩
      rw [hu]
      exact congrArg (httpL ++ ·) hfinal

/-- C10: while the gate is not ready, a `GET /welcome` whose root URL does
not match `^https?://([\w-]*).herokuapp.com.*` raises an error (the
host-name search yields no match and `.group(1)` is invoked on `None`)
instead of rendering the setup page; the setup page is rendered only for
URLs that match the pattern. -/
theorem welcome_nonmatching_raises (url : Str) :
    (¬ MatchesWelcomePattern url →
      welcome false (.ok false) url = (.error .attributeError, false)) ∧
    (∀ r, (welcome false (.ok false) url).1 = .ok (.rendered r) →
      MatchesWelcomePattern url) := by
  constructor
  · intro hnm
    have hnone : appNameMatch url = none := by
      cases hm : appNameMatch url with
      | none => rfl
      | some n => exact absurd (matches_of_appNameMatch_some hm) hnm
    simp [welcome, salesforce_connection_exists, hnone]
  · intro r hr
    cases hm : appNameMatch url with
    | none => simp [welcome, salesforce_connection_exists, hm] at hr
    | some n => exact matches_of_appNameMatch_some hm

/-- C10 witness: a non-herokuapp root URL makes the not-ready welcome view
raise. -/
theorem welcome_nonmatching_raises_witness :
    welcome false (.ok false) "https://example.com/".toList =
      (.error .attributeError, false) :=
  (welcome_nonmatching_raises "https://example.com/".toList).1 (fun hm => by
    have h := appNameMatch_isSome_of_matches hm
    rw [show appNameMatch "https://example.com/".toList = none from by decide]
      at h
    simp at h)
